import Mathlib

/-!
Verification of the per-client payment-dispute engine.

The definitions below are a shallow embedding of the Rust sources
`src/client.rs` and `src/transaction.rs`.  Amounts (`f64` in the source)
are modelled as exact rationals; identifiers (`u16`, `u32`) are modelled
as naturals, since the engine only compares them for equality.  The
`HashMap<u32, Transaction>` of processed transactions is modelled as a
function `Nat → Option Transaction`, and the `VecDeque<u32>` dispute
window as a `List Nat` whose head is the front (oldest) entry.
-/

/-- The window size of transactions that can be disputed (`WINDOW_SIZE`). -/
def WINDOW_SIZE : Nat := 1000

/-- Largest finite `f64` value, as an exact rational. -/
def f64MAX : ℚ := ((2 ^ 1024 - 2 ^ 971 : ℕ) : ℚ)

/-- Smallest finite `f64` value (`f64::MIN = -f64::MAX`), as an exact rational. -/
def f64MIN : ℚ := -f64MAX

/-- Embedding of `truncate_to_decimal_places` from `src/transaction.rs`.
The source computes `ten = 10.0f64.powi(places)`, returns `num` unchanged
when `num > f64::MAX / ten || num < f64::MIN / ten`, and otherwise returns
`(num * ten).floor() / ten`.  Floating-point arithmetic is modelled as
exact rational arithmetic. -/
def truncate_to_decimal_places (num : ℚ) (places : ℤ) : ℚ :=
  let ten : ℚ := 10 ^ places
  if num > f64MAX / ten ∨ num < f64MIN / ten then num
  else (⌊num * ten⌋ : ℚ) / ten

/-- The five raw transaction variants (`RawTransactionVariant`). -/
inductive RawTransactionVariant
  | deposit
  | withdrawal
  | dispute
  | resolve
  | chargeback
deriving DecidableEq, Repr

/-- A raw transaction record as read from the input (`RawTransaction`). -/
structure RawTransaction where
  variant : RawTransactionVariant
  client_id : Nat
  tx_id : Nat
  amount : Option ℚ
deriving DecidableEq, Repr

/-- A parsed deposit (`Deposit`). -/
structure Deposit where
  client_id : Nat
  tx_id : Nat
  amount : ℚ
  disputed : Bool
  resolved : Bool
deriving DecidableEq, Repr

/-- A parsed withdrawal (`Withdrawal`). -/
structure Withdrawal where
  client_id : Nat
  tx_id : Nat
  amount : ℚ
  disputed : Bool
  resolved : Bool
  failed : Bool
deriving DecidableEq, Repr

/-- A parsed dispute (`Dispute`). -/
structure Dispute where
  client_id : Nat
  tx_id : Nat
deriving DecidableEq, Repr

/-- A parsed resolve (`Resolve`). -/
structure Resolve where
  client_id : Nat
  tx_id : Nat
deriving DecidableEq, Repr

/-- A parsed chargeback (`Chargeback`). -/
structure Chargeback where
  client_id : Nat
  tx_id : Nat
deriving DecidableEq, Repr

/-- Wrapper for the possible parsed transaction variants (`Transaction`). -/
inductive Transaction
  | deposit (d : Deposit)
  | withdrawal (w : Withdrawal)
  | dispute (d : Dispute)
  | resolve (r : Resolve)
  | chargeback (c : Chargeback)
deriving DecidableEq, Repr

/-- Embedding of `TryFrom<RawTransaction> for Deposit`: requires the
`Deposit` variant, a present non-negative amount, and truncates the
amount to 4 decimal places. -/
def Deposit.try_from (value : RawTransaction) : Option Deposit :=
  if value.variant = RawTransactionVariant.deposit then
    match value.amount with
    | some amount =>
        if amount < 0 then none
        else some { client_id := value.client_id, tx_id := value.tx_id,
                    amount := truncate_to_decimal_places amount 4,
                    disputed := false, resolved := false }
    | none => none
  else none

/-- Embedding of `TryFrom<RawTransaction> for Withdrawal`. -/
def Withdrawal.try_from (value : RawTransaction) : Option Withdrawal :=
  if value.variant ≠ RawTransactionVariant.withdrawal then none
  else
    match value.amount with
    | some amount =>
        if amount < 0 then none
        else some { client_id := value.client_id, tx_id := value.tx_id,
                    amount := truncate_to_decimal_places amount 4,
                    disputed := false, resolved := false, failed := false }
    | none => none

/-- Embedding of `TryFrom<RawTransaction> for Dispute`: requires the
`Dispute` variant and an absent amount. -/
def Dispute.try_from (value : RawTransaction) : Option Dispute :=
  if value.variant ≠ RawTransactionVariant.dispute then none
  else if value.amount.isSome then none
  else some { client_id := value.client_id, tx_id := value.tx_id }

/-- Embedding of `TryFrom<RawTransaction> for Resolve`. -/
def Resolve.try_from (value : RawTransaction) : Option Resolve :=
  if value.variant ≠ RawTransactionVariant.resolve then none
  else if value.amount.isSome then none
  else some { client_id := value.client_id, tx_id := value.tx_id }

/-- Embedding of `TryFrom<RawTransaction> for Chargeback`. -/
def Chargeback.try_from (value : RawTransaction) : Option Chargeback :=
  if value.variant ≠ RawTransactionVariant.chargeback then none
  else if value.amount.isSome then none
  else some { client_id := value.client_id, tx_id := value.tx_id }

/-- Pointwise insertion into the processed-transactions map, modelling
`HashMap::insert` (later insertions overwrite earlier ones). -/
def mapInsert (m : Nat → Option Transaction) (k : Nat) (v : Transaction) :
    Nat → Option Transaction :=
  fun t => if t = k then some v else m t

/-- Pointwise removal from the processed-transactions map, modelling
`HashMap::remove`. -/
def mapRemove (m : Nat → Option Transaction) (k : Nat) :
    Nat → Option Transaction :=
  fun t => if t = k then none else m t

/-- A client account (`Client`), with the pending balances of
`process_activity` folded into the state.  `dispute_window` lists tx ids
front (oldest) first. -/
structure Client where
  id : Nat
  available_balance : ℚ
  held_balance : ℚ
  total_balance : ℚ
  locked : Bool
  processed_transactions : Nat → Option Transaction
  dispute_window : List Nat

/-- Embedding of `Client::new`. -/
def Client.new (id : Nat) : Client :=
  { id := id, available_balance := 0, held_balance := 0, total_balance := 0,
    locked := false, processed_transactions := fun _ => none,
    dispute_window := [] }

/-- Embedding of `Client::process_deposit`. -/
def Client.process_deposit (s : Client) (deposit : Deposit) : Client :=
  if deposit.client_id ≠ s.id then s
  else
    { s with
      total_balance := s.total_balance + deposit.amount,
      available_balance := s.available_balance + deposit.amount,
      dispute_window := s.dispute_window ++ [deposit.tx_id],
      processed_transactions :=
        mapInsert s.processed_transactions deposit.tx_id
          (Transaction.deposit deposit) }

/-- Embedding of `Client::process_withdrawal`. -/
def Client.process_withdrawal (s : Client) (withdrawal : Withdrawal) : Client :=
  if withdrawal.client_id ≠ s.id then s
  else if s.total_balance < withdrawal.amount then
    { s with
      processed_transactions :=
        mapInsert s.processed_transactions withdrawal.tx_id
          (Transaction.withdrawal { withdrawal with failed := true }) }
  else
    { s with
      total_balance := s.total_balance - withdrawal.amount,
      available_balance := s.available_balance - withdrawal.amount,
      dispute_window := s.dispute_window ++ [withdrawal.tx_id],
      processed_transactions :=
        mapInsert s.processed_transactions withdrawal.tx_id
          (Transaction.withdrawal withdrawal) }

/-- Embedding of `Client::process_dispute`. -/
def Client.process_dispute (s : Client) (dispute : Dispute) : Client :=
  match s.processed_transactions dispute.tx_id with
  | some (Transaction.deposit d) =>
      if d.disputed ∨ d.resolved ∨ dispute.client_id ≠ d.client_id then s
      else
        { s with
          held_balance := s.held_balance + d.amount,
          available_balance := s.available_balance - d.amount,
          processed_transactions :=
            mapInsert s.processed_transactions dispute.tx_id
              (Transaction.deposit { d with disputed := true }) }
  | some (Transaction.withdrawal w) =>
      if w.disputed ∨ w.resolved ∨ dispute.client_id ≠ w.client_id then s
      else if w.failed then
        { s with
          processed_transactions :=
            mapInsert s.processed_transactions dispute.tx_id
              (Transaction.withdrawal { w with disputed := true }) }
      else
        { s with
          held_balance := s.held_balance - w.amount,
          available_balance := s.available_balance + w.amount,
          processed_transactions :=
            mapInsert s.processed_transactions dispute.tx_id
              (Transaction.withdrawal { w with disputed := true }) }
  | _ => s

/-- Embedding of `Client::process_resolve`.  The optional `tx` argument
models the `Option<&mut Transaction>` parameter: when it is `some`, the
resolve rules are applied to the supplied record (whose mutated copy the
caller discards, as in window finalization), and the map is untouched;
when it is `none`, the record is looked up in the map and updated there. -/
def Client.process_resolve (s : Client) (resolve : Resolve)
    (tx : Option Transaction) : Client :=
  match tx with
  | some (Transaction.deposit d) =>
      if ¬d.disputed ∨ d.resolved ∨ resolve.client_id ≠ d.client_id then s
      else
        { s with
          held_balance := s.held_balance - d.amount,
          available_balance := s.available_balance + d.amount }
  | some (Transaction.withdrawal w) =>
      if ¬w.disputed ∨ w.resolved ∨ resolve.client_id ≠ w.client_id then s
      else if w.failed then s
      else
        { s with
          held_balance := s.held_balance + w.amount,
          available_balance := s.available_balance - w.amount }
  | some _ => s
  | none =>
      match s.processed_transactions resolve.tx_id with
      | some (Transaction.deposit d) =>
          if ¬d.disputed ∨ d.resolved ∨ resolve.client_id ≠ d.client_id then s
          else
            { s with
              held_balance := s.held_balance - d.amount,
              available_balance := s.available_balance + d.amount,
              processed_transactions :=
                mapInsert s.processed_transactions resolve.tx_id
                  (Transaction.deposit { d with resolved := true }) }
      | some (Transaction.withdrawal w) =>
          if ¬w.disputed ∨ w.resolved ∨ resolve.client_id ≠ w.client_id then s
          else if w.failed then
            { s with
              processed_transactions :=
                mapInsert s.processed_transactions resolve.tx_id
                  (Transaction.withdrawal { w with resolved := true }) }
          else
            { s with
              held_balance := s.held_balance + w.amount,
              available_balance := s.available_balance - w.amount,
              processed_transactions :=
                mapInsert s.processed_transactions resolve.tx_id
                  (Transaction.withdrawal { w with resolved := true }) }
      | _ => s

/-- Embedding of `Client::process_chargeback`. -/
def Client.process_chargeback (s : Client) (chargeback : Chargeback) : Client :=
  match s.processed_transactions chargeback.tx_id with
  | some (Transaction.deposit d) =>
      if ¬d.disputed ∨ d.resolved ∨ chargeback.client_id ≠ d.client_id then s
      else
        { s with
          held_balance := s.held_balance - d.amount,
          total_balance := s.total_balance - d.amount,
          locked := true,
          processed_transactions :=
            mapInsert s.processed_transactions chargeback.tx_id
              (Transaction.deposit { d with resolved := true }) }
  | some (Transaction.withdrawal w) =>
      if ¬w.disputed ∨ w.resolved ∨ chargeback.client_id ≠ w.client_id then s
      else if w.failed then
        { s with
          locked := true,
          processed_transactions :=
            mapInsert s.processed_transactions chargeback.tx_id
              (Transaction.withdrawal { w with resolved := true }) }
      else
        { s with
          held_balance := s.held_balance + w.amount,
          total_balance := s.total_balance + w.amount,
          locked := true,
          processed_transactions :=
            mapInsert s.processed_transactions chargeback.tx_id
              (Transaction.withdrawal { w with resolved := true }) }
  | _ => s

/-- Embedding of `Client::reverse_withdrawal`: reverses a withdrawal that
is `(!failed && !disputed) || resolved`, marking it failed. -/
def Client.reverse_withdrawal (s : Client) (id : Nat) : Client :=
  match s.processed_transactions id with
  | some (Transaction.withdrawal w) =>
      if (¬w.failed ∧ ¬w.disputed) ∨ w.resolved then
        { s with
          available_balance := s.available_balance + w.amount,
          total_balance := s.total_balance + w.amount,
          processed_transactions :=
            mapInsert s.processed_transactions id
              (Transaction.withdrawal { w with failed := true }) }
      else s
  | _ => s

/-- Embedding of `Client::finalize_transaction`: pop the front of the
dispute window, remove its record from the map, and auto-resolve it when
it is a disputed, unresolved deposit or withdrawal. -/
def Client.finalize_transaction (s : Client) : Client :=
  match s.dispute_window with
  | [] => s
  | id :: rest =>
    let s1 := { s with dispute_window := rest }
    match s1.processed_transactions id with
    | none => s1
    | some old_tx =>
      let s2 :=
        { s1 with
          processed_transactions := mapRemove s1.processed_transactions id }
      match old_tx with
      | Transaction.deposit deposit =>
          if deposit.disputed ∧ ¬deposit.resolved then
            s2.process_resolve
              { client_id := deposit.client_id, tx_id := deposit.tx_id }
              (some (Transaction.deposit deposit))
          else s2
      | Transaction.withdrawal withdrawal =>
          if withdrawal.disputed ∧ ¬withdrawal.resolved then
            s2.process_resolve
              { client_id := withdrawal.client_id, tx_id := withdrawal.tx_id }
              (some (Transaction.withdrawal withdrawal))
          else s2
      | _ => s2

/-- The cascade-reversal loop of the chargeback arm of
`Client::process_transaction`: `for id in ids_to_check { if total >= 0
break; reverse_withdrawal(id) }`. -/
def Client.cascade_loop (s : Client) : List Nat → Client
  | [] => s
  | id :: ids =>
      if 0 ≤ s.total_balance then s
      else Client.cascade_loop (s.reverse_withdrawal id) ids

/-- The chargeback arm of `Client::process_transaction`: apply the
chargeback, locate the charged-back tx in the dispute window, and when
the total balance is negative run the cascade over the window entries
from that position onward in reverse order. -/
def Client.chargeback_arm (s : Client) (chargeback : Chargeback) : Client :=
  let s1 := s.process_chargeback chargeback
  match s1.dispute_window.findIdx? (fun id => id == chargeback.tx_id) with
  | some window_start =>
      let ids_to_check := (s1.dispute_window.drop window_start).reverse
      if s1.total_balance < 0 then s1.cascade_loop ids_to_check else s1
  | none => s1

/-- The variant dispatch of `Client::process_transaction` (the `match` on
`transaction.variant` after the window-admission check).  A failed
`try_into` conversion leaves the state unchanged. -/
def Client.apply_event (s : Client) (transaction : RawTransaction) : Client :=
  match transaction.variant with
  | RawTransactionVariant.deposit =>
      match Deposit.try_from transaction with
      | some deposit => s.process_deposit deposit
      | none => s
  | RawTransactionVariant.withdrawal =>
      match Withdrawal.try_from transaction with
      | some withdrawal => s.process_withdrawal withdrawal
      | none => s
  | RawTransactionVariant.dispute =>
      match Dispute.try_from transaction with
      | some dispute => s.process_dispute dispute
      | none => s
  | RawTransactionVariant.resolve =>
      match Resolve.try_from transaction with
      | some resolve => s.process_resolve resolve none
      | none => s
  | RawTransactionVariant.chargeback =>
      match Chargeback.try_from transaction with
      | some chargeback => s.chargeback_arm chargeback
      | none => s

/-- Embedding of `Client::process_transaction`: if the dispute window is
full, finalize the oldest entry, then dispatch on the variant. -/
def Client.process_transaction (s : Client) (transaction : RawTransaction) :
    Client :=
  (if WINDOW_SIZE ≤ s.dispute_window.length then s.finalize_transaction
   else s).apply_event transaction

/-- Embedding of the event loop of `Client::process_activity`: events are
consumed in order and processing stops as soon as the client is locked. -/
def Client.process_activity (s : Client) : List RawTransaction → Client
  | [] => s
  | t :: ts =>
      if s.locked then s
      else Client.process_activity (s.process_transaction t) ts

/-! ### Helper lemmas about the map model and the parsers -/

/-- Pointwise evaluation of `mapInsert`. -/
@[simp] theorem mapInsert_apply (m : Nat → Option Transaction) (k : Nat)
    (v : Transaction) (t : Nat) :
    mapInsert m k v t = if t = k then some v else m t := rfl

/-- Pointwise evaluation of `mapRemove`. -/
@[simp] theorem mapRemove_apply (m : Nat → Option Transaction) (k : Nat)
    (t : Nat) :
    mapRemove m k t = if t = k then none else m t := rfl

/-- Truncation to 4 decimal places preserves non-negativity. -/
theorem truncate_to_decimal_places_nonneg (x : ℚ) (hx : 0 ≤ x) :
    0 ≤ truncate_to_decimal_places x 4 := by
  simp only [truncate_to_decimal_places]
  split
  · exact hx
  · have hten : (0:ℚ) < 10 ^ (4:ℤ) := by positivity
    have hfl : (0:ℤ) ≤ ⌊x * 10 ^ (4:ℤ)⌋ := by
      apply Int.floor_nonneg.mpr
      positivity
    positivity

/-- A successfully parsed deposit has a non-negative amount. -/
theorem deposit_try_from_amount_nonneg (raw : RawTransaction) (d : Deposit)
    (h : Deposit.try_from raw = some d) : 0 ≤ d.amount := by
  unfold Deposit.try_from at h
  split at h
  · cases hm : raw.amount with
    | none => rw [hm] at h; cases h
    | some amount =>
        rw [hm] at h
        dsimp only at h
        by_cases hneg : amount < 0
        · rw [if_pos hneg] at h; cases h
        · rw [if_neg hneg] at h
          cases h
          exact truncate_to_decimal_places_nonneg amount (le_of_not_lt hneg)
  · cases h

/-- A successfully parsed withdrawal has a non-negative amount. -/
theorem withdrawal_try_from_amount_nonneg (raw : RawTransaction)
    (w : Withdrawal) (h : Withdrawal.try_from raw = some w) : 0 ≤ w.amount := by
  unfold Withdrawal.try_from at h
  split at h
  · cases h
  · cases hm : raw.amount with
    | none => rw [hm] at h; cases h
    | some amount =>
        rw [hm] at h
        dsimp only at h
        by_cases hneg : amount < 0
        · rw [if_pos hneg] at h; cases h
        · rw [if_neg hneg] at h
          cases h
          exact truncate_to_decimal_places_nonneg amount (le_of_not_lt hneg)

/-- A successfully parsed chargeback comes from a chargeback-variant raw row. -/
theorem Chargeback.try_from_variant (raw : RawTransaction) (cb : Chargeback)
    (h : Chargeback.try_from raw = some cb) :
    raw.variant = RawTransactionVariant.chargeback := by
  unfold Chargeback.try_from at h
  split at h
  · exact absurd h (by simp)
  · rename_i hv
    exact not_not.mp hv

/-! ### C10: the 4-decimal truncation helper -/

/-- Truncation toward zero of a rational number, as worded in the spec
(floor for non-negative arguments, ceiling for negative ones). -/
def ratTruncTowardZero (q : ℚ) : ℤ := if 0 ≤ q then ⌊q⌋ else ⌈q⌉

/-- C10: `truncate(x, 4)` returns `x` unchanged when scaling by `10^4`
would overflow the representable range, and otherwise returns
`⌊x * 10^4⌋ / 10^4`, where for non-negative `x` the floor coincides with
truncation toward zero. -/
theorem truncate_to_decimal_places_4_spec (x : ℚ) :
    ((x > f64MAX / 10 ^ (4:ℤ) ∨ x < f64MIN / 10 ^ (4:ℤ)) →
      truncate_to_decimal_places x 4 = x) ∧
    (f64MIN / 10 ^ (4:ℤ) ≤ x → x ≤ f64MAX / 10 ^ (4:ℤ) →
      truncate_to_decimal_places x 4 = (⌊x * 10 ^ (4:ℤ)⌋ : ℚ) / 10 ^ (4:ℤ) ∧
      (0 ≤ x → ⌊x * 10 ^ (4:ℤ)⌋ = ratTruncTowardZero (x * 10 ^ (4:ℤ)))) := by
  constructor
  · intro h
    unfold truncate_to_decimal_places
    exact if_pos h
  · intro h1 h2
    have hcond : ¬(x > f64MAX / 10 ^ (4:ℤ) ∨ x < f64MIN / 10 ^ (4:ℤ)) := by
      push_neg
      exact ⟨h2, h1⟩
    constructor
    · unfold truncate_to_decimal_places
      exact if_neg hcond
    · intro hx
      unfold ratTruncTowardZero
      rw [if_pos]
      positivity

/-- Witness for C10: a value inside the representable range is floored and
scaled, and a value outside it is returned unchanged. -/
theorem truncate_to_decimal_places_4_spec_witness :
    truncate_to_decimal_places (1/3) 4 =
      ((⌊(1/3 : ℚ) * 10 ^ (4:ℤ)⌋ : ℚ) / 10 ^ (4:ℤ)) ∧
    truncate_to_decimal_places f64MAX 4 = f64MAX := by
  constructor
  · exact ((truncate_to_decimal_places_4_spec (1/3)).2
      (by norm_num [f64MIN, f64MAX]) (by norm_num [f64MIN, f64MAX])).1
  · exact (truncate_to_decimal_places_4_spec f64MAX).1
      (Or.inl (by norm_num [f64MIN, f64MAX]))

/-! ### The state invariant

`ClientInv` bundles the facts preserved by every step of the state machine:
the accounting identity `total = available + held`, non-negativity of the
total balance while the account is unlocked, the fact that every deposit
still present in the processed map has its tx id in the dispute window,
and non-negativity of all stored amounts. -/

/-- Stored deposit and withdrawal records carry non-negative amounts. -/
def txAmountNonneg : Transaction → Prop
  | Transaction.deposit d => 0 ≤ d.amount
  | Transaction.withdrawal w => 0 ≤ w.amount
  | _ => True

/-- The invariant maintained by the per-client state machine. -/
structure ClientInv (s : Client) : Prop where
  bal : s.total_balance = s.available_balance + s.held_balance
  total_nonneg : s.locked = false → 0 ≤ s.total_balance
  dep_mem : ∀ id d, s.processed_transactions id = some (Transaction.deposit d) →
    id ∈ s.dispute_window
  amt_nonneg : ∀ id t, s.processed_transactions id = some t → txAmountNonneg t

/-- The fresh client state satisfies the invariant. -/
theorem clientInv_new (cid : Nat) : ClientInv (Client.new cid) := by
  refine ⟨show (0:ℚ) = 0 + 0 by norm_num, fun _ => le_refl 0, ?_, ?_⟩
  · intro id d h
    cases h
  · intro id t h
    cases h

/-- `process_deposit` preserves the invariant. -/
theorem clientInv_process_deposit (s : Client) (d : Deposit)
    (hd : 0 ≤ d.amount) (h : ClientInv s) : ClientInv (s.process_deposit d) := by
  unfold Client.process_deposit
  split
  · exact h
  · refine ⟨?_, ?_, ?_, ?_⟩
    · show s.total_balance + d.amount =
        s.available_balance + d.amount + s.held_balance
      rw [h.bal]; ring
    · intro hl
      exact add_nonneg (h.total_nonneg hl) hd
    · intro id dd hdd
      simp only [mapInsert_apply] at hdd
      by_cases hid : id = d.tx_id
      · subst hid
        simp
      · rw [if_neg hid] at hdd
        exact List.mem_append.mpr (Or.inl (h.dep_mem id dd hdd))
    · intro id t ht
      simp only [mapInsert_apply] at ht
      by_cases hid : id = d.tx_id
      · rw [if_pos hid] at ht
        cases ht
        exact hd
      · rw [if_neg hid] at ht
        exact h.amt_nonneg id t ht

/-- `process_withdrawal` preserves the invariant. -/
theorem clientInv_process_withdrawal (s : Client) (w : Withdrawal)
    (hw : 0 ≤ w.amount) (h : ClientInv s) :
    ClientInv (s.process_withdrawal w) := by
  unfold Client.process_withdrawal
  split
  · exact h
  · split
    · refine ⟨h.bal, h.total_nonneg, ?_, ?_⟩
      · intro id dd hdd
        simp only [mapInsert_apply] at hdd
        by_cases hid : id = w.tx_id
        · rw [if_pos hid] at hdd
          cases hdd
        · rw [if_neg hid] at hdd
          exact h.dep_mem id dd hdd
      · intro id t ht
        simp only [mapInsert_apply] at ht
        by_cases hid : id = w.tx_id
        · rw [if_pos hid] at ht
          cases ht
          exact hw
        · rw [if_neg hid] at ht
          exact h.amt_nonneg id t ht
    · rename_i hfunds
      refine ⟨?_, ?_, ?_, ?_⟩
      · show s.total_balance - w.amount =
          s.available_balance - w.amount + s.held_balance
        rw [h.bal]; ring
      · intro _
        have hle : w.amount ≤ s.total_balance := le_of_not_lt hfunds
        show 0 ≤ s.total_balance - w.amount
        linarith
      · intro id dd hdd
        simp only [mapInsert_apply] at hdd
        by_cases hid : id = w.tx_id
        · rw [if_pos hid] at hdd
          cases hdd
        · rw [if_neg hid] at hdd
          exact List.mem_append.mpr (Or.inl (h.dep_mem id dd hdd))
      · intro id t ht
        simp only [mapInsert_apply] at ht
        by_cases hid : id = w.tx_id
        · rw [if_pos hid] at ht
          cases ht
          exact hw
        · rw [if_neg hid] at ht
          exact h.amt_nonneg id t ht

/-- `process_dispute` preserves the invariant. -/
theorem clientInv_process_dispute (s : Client) (dispute : Dispute)
    (h : ClientInv s) : ClientInv (s.process_dispute dispute) := by
  unfold Client.process_dispute
  split
  · rename_i d heq
    split
    · exact h
    · refine ⟨?_, h.total_nonneg, ?_, ?_⟩
      · show s.total_balance =
          s.available_balance - d.amount + (s.held_balance + d.amount)
        rw [h.bal]; ring
      · intro id dd hdd
        simp only [mapInsert_apply] at hdd
        by_cases hid : id = dispute.tx_id
        · subst hid
          exact h.dep_mem _ d heq
        · rw [if_neg hid] at hdd
          exact h.dep_mem id dd hdd
      · intro id t ht
        simp only [mapInsert_apply] at ht
        by_cases hid : id = dispute.tx_id
        · rw [if_pos hid] at ht
          cases ht
          show 0 ≤ d.amount
          exact h.amt_nonneg _ _ heq
        · rw [if_neg hid] at ht
          exact h.amt_nonneg id t ht
  · rename_i w heq
    split
    · exact h
    · have hdep : ∀ id dd,
        mapInsert s.processed_transactions dispute.tx_id
          (Transaction.withdrawal { w with disputed := true }) id =
          some (Transaction.deposit dd) → id ∈ s.dispute_window := by
        intro id dd hdd
        simp only [mapInsert_apply] at hdd
        by_cases hid : id = dispute.tx_id
        · rw [if_pos hid] at hdd
          cases hdd
        · rw [if_neg hid] at hdd
          exact h.dep_mem id dd hdd
      have hamt : ∀ id t,
        mapInsert s.processed_transactions dispute.tx_id
          (Transaction.withdrawal { w with disputed := true }) id = some t →
          txAmountNonneg t := by
        intro id t ht
        simp only [mapInsert_apply] at ht
        by_cases hid : id = dispute.tx_id
        · rw [if_pos hid] at ht
          cases ht
          show 0 ≤ w.amount
          exact h.amt_nonneg _ _ heq
        · rw [if_neg hid] at ht
          exact h.amt_nonneg id t ht
      split
      · exact ⟨h.bal, h.total_nonneg, hdep, hamt⟩
      · refine ⟨?_, h.total_nonneg, hdep, hamt⟩
        show s.total_balance =
          s.available_balance + w.amount + (s.held_balance - w.amount)
        rw [h.bal]; ring
  · exact h

/-- `process_resolve` on an explicitly supplied record preserves the
invariant (it only moves funds between held and available). -/
theorem clientInv_process_resolve_rec (s : Client) (r : Resolve)
    (t : Transaction) (h : ClientInv s) :
    ClientInv (s.process_resolve r (some t)) := by
  cases t with
  | deposit d =>
      show ClientInv
        (if ¬d.disputed ∨ d.resolved ∨ r.client_id ≠ d.client_id then s
         else
           { s with
             held_balance := s.held_balance - d.amount,
             available_balance := s.available_balance + d.amount })
      split
      · exact h
      · refine ⟨?_, h.total_nonneg, h.dep_mem, h.amt_nonneg⟩
        show s.total_balance =
          s.available_balance + d.amount + (s.held_balance - d.amount)
        rw [h.bal]; ring
  | withdrawal w =>
      show ClientInv
        (if ¬w.disputed ∨ w.resolved ∨ r.client_id ≠ w.client_id then s
         else if w.failed then s
         else
           { s with
             held_balance := s.held_balance + w.amount,
             available_balance := s.available_balance - w.amount })
      split
      · exact h
      · split
        · exact h
        · refine ⟨?_, h.total_nonneg, h.dep_mem, h.amt_nonneg⟩
          show s.total_balance =
            s.available_balance - w.amount + (s.held_balance + w.amount)
          rw [h.bal]; ring
  | dispute d => exact h
  | resolve r2 => exact h
  | chargeback c => exact h

/-- `process_resolve` through the processed map preserves the invariant. -/
theorem clientInv_process_resolve_map (s : Client) (r : Resolve)
    (h : ClientInv s) : ClientInv (s.process_resolve r none) := by
  show ClientInv
    (match s.processed_transactions r.tx_id with
      | some (Transaction.deposit d) =>
          if ¬d.disputed ∨ d.resolved ∨ r.client_id ≠ d.client_id then s
          else
            { s with
              held_balance := s.held_balance - d.amount,
              available_balance := s.available_balance + d.amount,
              processed_transactions :=
                mapInsert s.processed_transactions r.tx_id
                  (Transaction.deposit { d with resolved := true }) }
      | some (Transaction.withdrawal w) =>
          if ¬w.disputed ∨ w.resolved ∨ r.client_id ≠ w.client_id then s
          else if w.failed then
            { s with
              processed_transactions :=
                mapInsert s.processed_transactions r.tx_id
                  (Transaction.withdrawal { w with resolved := true }) }
          else
            { s with
              held_balance := s.held_balance + w.amount,
              available_balance := s.available_balance - w.amount,
              processed_transactions :=
                mapInsert s.processed_transactions r.tx_id
                  (Transaction.withdrawal { w with resolved := true }) }
      | _ => s)
  split
  · rename_i d heq
    split
    · exact h
    · refine ⟨?_, h.total_nonneg, ?_, ?_⟩
      · show s.total_balance =
          s.available_balance + d.amount + (s.held_balance - d.amount)
        rw [h.bal]; ring
      · intro id dd hdd
        simp only [mapInsert_apply] at hdd
        by_cases hid : id = r.tx_id
        · subst hid
          exact h.dep_mem _ d heq
        · rw [if_neg hid] at hdd
          exact h.dep_mem id dd hdd
      · intro id t ht
        simp only [mapInsert_apply] at ht
        by_cases hid : id = r.tx_id
        · rw [if_pos hid] at ht
          cases ht
          show 0 ≤ d.amount
          exact h.amt_nonneg _ _ heq
        · rw [if_neg hid] at ht
          exact h.amt_nonneg id t ht
  · rename_i w heq
    split
    · exact h
    · have hdep : ∀ id dd,
        mapInsert s.processed_transactions r.tx_id
          (Transaction.withdrawal { w with resolved := true }) id =
          some (Transaction.deposit dd) → id ∈ s.dispute_window := by
        intro id dd hdd
        simp only [mapInsert_apply] at hdd
        by_cases hid : id = r.tx_id
        · rw [if_pos hid] at hdd
          cases hdd
        · rw [if_neg hid] at hdd
          exact h.dep_mem id dd hdd
      have hamt : ∀ id t,
        mapInsert s.processed_transactions r.tx_id
          (Transaction.withdrawal { w with resolved := true }) id = some t →
          txAmountNonneg t := by
        intro id t ht
        simp only [mapInsert_apply] at ht
        by_cases hid : id = r.tx_id
        · rw [if_pos hid] at ht
          cases ht
          show 0 ≤ w.amount
          exact h.amt_nonneg _ _ heq
        · rw [if_neg hid] at ht
          exact h.amt_nonneg id t ht
      split
      · exact ⟨h.bal, h.total_nonneg, hdep, hamt⟩
      · refine ⟨?_, h.total_nonneg, hdep, hamt⟩
        show s.total_balance =
          s.available_balance - w.amount + (s.held_balance + w.amount)
        rw [h.bal]; ring
  · exact h

/-- `process_chargeback` preserves the invariant. -/
theorem clientInv_process_chargeback (s : Client) (cb : Chargeback)
    (h : ClientInv s) : ClientInv (s.process_chargeback cb) := by
  unfold Client.process_chargeback
  split
  · rename_i d heq
    split
    · exact h
    · refine ⟨?_, ?_, ?_, ?_⟩
      · show s.total_balance - d.amount =
          s.available_balance + (s.held_balance - d.amount)
        rw [h.bal]; ring
      · intro hl
        exact absurd hl (by simp)
      · intro id dd hdd
        simp only [mapInsert_apply] at hdd
        by_cases hid : id = cb.tx_id
        · subst hid
          exact h.dep_mem _ d heq
        · rw [if_neg hid] at hdd
          exact h.dep_mem id dd hdd
      · intro id t ht
        simp only [mapInsert_apply] at ht
        by_cases hid : id = cb.tx_id
        · rw [if_pos hid] at ht
          cases ht
          show 0 ≤ d.amount
          exact h.amt_nonneg _ _ heq
        · rw [if_neg hid] at ht
          exact h.amt_nonneg id t ht
  · rename_i w heq
    split
    · exact h
    · have hdep : ∀ id dd,
        mapInsert s.processed_transactions cb.tx_id
          (Transaction.withdrawal { w with resolved := true }) id =
          some (Transaction.deposit dd) → id ∈ s.dispute_window := by
        intro id dd hdd
        simp only [mapInsert_apply] at hdd
        by_cases hid : id = cb.tx_id
        · rw [if_pos hid] at hdd
          cases hdd
        · rw [if_neg hid] at hdd
          exact h.dep_mem id dd hdd
      have hamt : ∀ id t,
        mapInsert s.processed_transactions cb.tx_id
          (Transaction.withdrawal { w with resolved := true }) id = some t →
          txAmountNonneg t := by
        intro id t ht
        simp only [mapInsert_apply] at ht
        by_cases hid : id = cb.tx_id
        · rw [if_pos hid] at ht
          cases ht
          show 0 ≤ w.amount
          exact h.amt_nonneg _ _ heq
        · rw [if_neg hid] at ht
          exact h.amt_nonneg id t ht
      split
      · exact ⟨h.bal, fun hl => absurd hl (by simp), hdep, hamt⟩
      · refine ⟨?_, fun hl => absurd hl (by simp), hdep, hamt⟩
        show s.total_balance + w.amount =
          s.available_balance + (s.held_balance + w.amount)
        rw [h.bal]; ring
  · exact h

/-- `reverse_withdrawal` preserves the invariant. -/
theorem clientInv_reverse_withdrawal (s : Client) (id : Nat)
    (h : ClientInv s) : ClientInv (s.reverse_withdrawal id) := by
  unfold Client.reverse_withdrawal
  split
  · rename_i w heq
    split
    · refine ⟨?_, ?_, ?_, ?_⟩
      · show s.total_balance + w.amount =
          s.available_balance + w.amount + s.held_balance
        rw [h.bal]; ring
      · intro hl
        have hw : (0:ℚ) ≤ w.amount := h.amt_nonneg _ _ heq
        have ht := h.total_nonneg hl
        show 0 ≤ s.total_balance + w.amount
        linarith
      · intro id' dd hdd
        simp only [mapInsert_apply] at hdd
        by_cases hid : id' = id
        · rw [if_pos hid] at hdd
          cases hdd
        · rw [if_neg hid] at hdd
          exact h.dep_mem id' dd hdd
      · intro id' t ht
        simp only [mapInsert_apply] at ht
        by_cases hid : id' = id
        · rw [if_pos hid] at ht
          cases ht
          show 0 ≤ w.amount
          exact h.amt_nonneg _ _ heq
        · rw [if_neg hid] at ht
          exact h.amt_nonneg id' t ht
    · exact h
  · exact h

/-- The cascade loop preserves the invariant. -/
theorem clientInv_cascade_loop (ids : List Nat) :
    ∀ s : Client, ClientInv s → ClientInv (s.cascade_loop ids) := by
  induction ids with
  | nil => exact fun s h => h
  | cons id rest ih =>
      intro s h
      show ClientInv (if 0 ≤ s.total_balance then s
        else Client.cascade_loop (s.reverse_withdrawal id) rest)
      split
      · exact h
      · exact ih _ (clientInv_reverse_withdrawal s id h)

/-- `finalize_transaction` preserves the invariant. -/
theorem clientInv_finalize_transaction (s : Client) (h : ClientInv s) :
    ClientInv s.finalize_transaction := by
  unfold Client.finalize_transaction
  split
  · exact h
  · rename_i id rest heqw
    dsimp only
    split
    · rename_i heqp
      refine ⟨h.bal, h.total_nonneg, ?_, h.amt_nonneg⟩
      intro id' dd hdd
      have hmem := h.dep_mem id' dd hdd
      rw [heqw] at hmem
      rcases List.mem_cons.mp hmem with hcase | hcase
      · subst hcase
        rw [hdd] at heqp
        cases heqp
      · exact hcase
  
    · rename_i old_tx heqp
      have h2 : ClientInv
          { s with
            dispute_window := rest,
            processed_transactions :=
              mapRemove s.processed_transactions id } := by
        refine ⟨h.bal, h.total_nonneg, ?_, ?_⟩
        · intro id' dd hdd
          simp only [mapRemove_apply] at hdd
          by_cases hid : id' = id
          · rw [if_pos hid] at hdd
            cases hdd
          · rw [if_neg hid] at hdd
            have hmem := h.dep_mem id' dd hdd
            rw [heqw] at hmem
            rcases List.mem_cons.mp hmem with hcase | hcase
            · exact absurd hcase hid
            · exact hcase
        · intro id' t ht
          simp only [mapRemove_apply] at ht
          by_cases hid : id' = id
          · rw [if_pos hid] at ht
            cases ht
          · rw [if_neg hid] at ht
            exact h.amt_nonneg id' t ht
      cases old_tx with
      | deposit d =>
          dsimp only
          split
          · exact clientInv_process_resolve_rec _ _ _ h2
          · exact h2
      | withdrawal w =>
          dsimp only
          split
          · exact clientInv_process_resolve_rec _ _ _ h2
          · exact h2
      | dispute d => exact h2
      | resolve r => exact h2
      | chargeback c => exact h2

/-- The chargeback arm of `process_transaction` preserves the invariant. -/
theorem clientInv_chargeback_arm (s : Client) (cb : Chargeback)
    (h : ClientInv s) : ClientInv (s.chargeback_arm cb) := by
  unfold Client.chargeback_arm
  dsimp only
  have h1 := clientInv_process_chargeback s cb h
  split
  · split
    · exact clientInv_cascade_loop _ _ h1
    · exact h1
  · exact h1

/-- Every event application preserves the invariant. -/
theorem clientInv_apply_event (s : Client) (raw : RawTransaction)
    (h : ClientInv s) : ClientInv (s.apply_event raw) := by
  unfold Client.apply_event
  split
  · split
    · rename_i d heq
      exact clientInv_process_deposit s d
        (deposit_try_from_amount_nonneg _ _ heq) h
    · exact h
  · split
    · rename_i w heq
      exact clientInv_process_withdrawal s w
        (withdrawal_try_from_amount_nonneg _ _ heq) h
    · exact h
  · split
    · exact clientInv_process_dispute s _ h
    · exact h
  · split
    · exact clientInv_process_resolve_map s _ h
    · exact h
  · split
    · exact clientInv_chargeback_arm s _ h
    · exact h

/-- `process_transaction` preserves the invariant. -/
theorem clientInv_process_transaction (s : Client) (raw : RawTransaction)
    (h : ClientInv s) : ClientInv (s.process_transaction raw) := by
  unfold Client.process_transaction
  split
  · exact clientInv_apply_event _ _ (clientInv_finalize_transaction s h)
  · exact clientInv_apply_event _ _ h

/-- The event loop preserves the invariant. -/
theorem clientInv_process_activity (events : List RawTransaction) :
    ∀ s : Client, ClientInv s → ClientInv (s.process_activity events) := by
  induction events with
  | nil => exact fun s h => h
  | cons t ts ih =>
      intro s h
      show ClientInv (if s.locked then s
        else Client.process_activity (s.process_transaction t) ts)
      split
      · exact h
      · exact ih _ (clientInv_process_transaction s t h)

/-- Every state reached from a fresh client satisfies the invariant. -/
theorem clientInv_reachable (cid : Nat) (events : List RawTransaction) :
    ClientInv ((Client.new cid).process_activity events) :=
  clientInv_process_activity events _ (clientInv_new cid)

/-! ### Concrete event rows used in witnesses and counterexamples -/

/-- A raw deposit row. -/
def depositRow (client tx : Nat) (amount : ℚ) : RawTransaction :=
  { variant := RawTransactionVariant.deposit, client_id := client,
    tx_id := tx, amount := some amount }

/-- A raw withdrawal row. -/
def withdrawalRow (client tx : Nat) (amount : ℚ) : RawTransaction :=
  { variant := RawTransactionVariant.withdrawal, client_id := client,
    tx_id := tx, amount := some amount }

/-- A raw dispute row. -/
def disputeRow (client tx : Nat) : RawTransaction :=
  { variant := RawTransactionVariant.dispute, client_id := client,
    tx_id := tx, amount := none }

/-- A raw resolve row. -/
def resolveRow (client tx : Nat) : RawTransaction :=
  { variant := RawTransactionVariant.resolve, client_id := client,
    tx_id := tx, amount := none }

/-- A raw chargeback row. -/
def chargebackRow (client tx : Nat) : RawTransaction :=
  { variant := RawTransactionVariant.chargeback, client_id := client,
    tx_id := tx, amount := none }

/-! ### C3: the accounting identity -/

/-- C3: for every per-client event sequence (hence for every prefix of
one), after processing it from a fresh client the running total balance
equals the running available balance plus the running held balance. -/
theorem total_eq_available_add_held (cid : Nat)
    (events : List RawTransaction) :
    ((Client.new cid).process_activity events).total_balance =
      ((Client.new cid).process_activity events).available_balance +
        ((Client.new cid).process_activity events).held_balance :=
  (clientInv_reachable cid events).bal

/-! ### C4: a locked account observes no further events -/

/-- A locked client state absorbs any further event sequence. -/
theorem process_activity_locked_absorb (s : Client)
    (events : List RawTransaction) (h : s.locked = true) :
    s.process_activity events = s := by
  cases events with
  | nil => rfl
  | cons t ts =>
      show (if s.locked then s
        else Client.process_activity (s.process_transaction t) ts) = s
      rw [if_pos h]

/-- The event loop splits over list append. -/
theorem process_activity_append (pre post : List RawTransaction) :
    ∀ s : Client, s.process_activity (pre ++ post) =
      (s.process_activity pre).process_activity post := by
  induction pre with
  | nil => intro s; rfl
  | cons t ts ih =>
      intro s
      by_cases h : s.locked
      · have h1 : s.process_activity ((t :: ts) ++ post) = s := by
          show (if s.locked then s else _) = s
          rw [if_pos h]
        have h2 : s.process_activity (t :: ts) = s := by
          show (if s.locked then s else _) = s
          rw [if_pos h]
        rw [h1, h2, process_activity_locked_absorb s post h]
      · have hb : s.locked = false := by
          cases hl : s.locked
          · rfl
          · exact absurd hl h
        have h1 : s.process_activity ((t :: ts) ++ post) =
            (s.process_transaction t).process_activity (ts ++ post) := by
          show (if s.locked then s else _) = _
          rw [hb]
          simp
        have h2 : s.process_activity (t :: ts) =
            (s.process_transaction t).process_activity ts := by
          show (if s.locked then s else _) = _
          rw [hb]
          simp
        rw [h1, h2, ih]

/-- C4: once the client's locked flag is true after some prefix, the
remaining events change nothing: the final state equals the state after
the prefix, so available, held and total balances are unchanged. -/
theorem locked_halts_processing (cid : Nat)
    (pre post : List RawTransaction)
    (h : ((Client.new cid).process_activity pre).locked = true) :
    (Client.new cid).process_activity (pre ++ post) =
      (Client.new cid).process_activity pre := by
  rw [process_activity_append]
  exact process_activity_locked_absorb _ post h

/-- Witness for C4: a deposit, a dispute and a chargeback lock the
account, and a further deposit leaves the state unchanged. -/
theorem locked_halts_processing_witness :
    ((Client.new 1).process_activity
      [depositRow 1 1 1500, disputeRow 1 1, chargebackRow 1 1]).locked =
        true ∧
    (Client.new 1).process_activity
        ([depositRow 1 1 1500, disputeRow 1 1, chargebackRow 1 1] ++
          [depositRow 1 3 1000]) =
      (Client.new 1).process_activity
        [depositRow 1 1 1500, disputeRow 1 1, chargebackRow 1 1] := by
  have h : ((Client.new 1).process_activity
      [depositRow 1 1 1500, disputeRow 1 1, chargebackRow 1 1]).locked =
        true := by
    norm_num [Client.process_activity, Client.process_transaction,
      Client.apply_event, Client.process_deposit, Client.process_withdrawal,
      Client.process_dispute, Client.process_resolve,
      Client.process_chargeback, Client.chargeback_arm, Client.cascade_loop,
      Client.reverse_withdrawal, Client.finalize_transaction,
      Deposit.try_from, Withdrawal.try_from, Dispute.try_from,
      Resolve.try_from, Chargeback.try_from, truncate_to_decimal_places,
      f64MAX, f64MIN, mapInsert, mapRemove, WINDOW_SIZE, Client.new,
      depositRow, withdrawalRow, disputeRow, resolveRow, chargebackRow,
      List.findIdx?]
  exact ⟨h, locked_halts_processing 1 _ _ h⟩

/-! ### Step-equation helpers for single operations on known records -/

/-- Equation for `process_dispute` on a stored, undisputed, unresolved
deposit with matching client id. -/
theorem process_dispute_deposit_eq (s : Client) (txid : Nat) (d : Deposit)
    (h : s.processed_transactions txid = some (Transaction.deposit d))
    (hd : d.disputed = false) (hr : d.resolved = false) :
    s.process_dispute { client_id := d.client_id, tx_id := txid } =
      { s with
        held_balance := s.held_balance + d.amount,
        available_balance := s.available_balance - d.amount,
        processed_transactions :=
          mapInsert s.processed_transactions txid
            (Transaction.deposit { d with disputed := true }) } := by
  unfold Client.process_dispute
  dsimp only
  rw [h]
  dsimp only
  split
  · rename_i hcond
    simp [hd, hr] at hcond
  · rfl

/-- Equation for `process_resolve` (map mode) on a stored, disputed,
unresolved deposit with matching client id. -/
theorem process_resolve_deposit_eq (s : Client) (txid : Nat) (d : Deposit)
    (h : s.processed_transactions txid = some (Transaction.deposit d))
    (hd : d.disputed = true) (hr : d.resolved = false) :
    s.process_resolve { client_id := d.client_id, tx_id := txid } none =
      { s with
        held_balance := s.held_balance - d.amount,
        available_balance := s.available_balance + d.amount,
        processed_transactions :=
          mapInsert s.processed_transactions txid
            (Transaction.deposit { d with resolved := true }) } := by
  unfold Client.process_resolve
  dsimp only
  rw [h]
  dsimp only
  split
  · rename_i hcond
    simp [hd, hr] at hcond
  · rfl

/-- Equation for `process_chargeback` on a stored, disputed, unresolved
deposit with matching client id. -/
theorem process_chargeback_deposit_eq (s : Client) (txid : Nat) (d : Deposit)
    (h : s.processed_transactions txid = some (Transaction.deposit d))
    (hd : d.disputed = true) (hr : d.resolved = false) :
    s.process_chargeback { client_id := d.client_id, tx_id := txid } =
      { s with
        held_balance := s.held_balance - d.amount,
        total_balance := s.total_balance - d.amount,
        locked := true,
        processed_transactions :=
          mapInsert s.processed_transactions txid
            (Transaction.deposit { d with resolved := true }) } := by
  unfold Client.process_chargeback
  dsimp only
  rw [h]
  dsimp only
  split
  · rename_i hcond
    simp [hd, hr] at hcond
  · rfl

/-! ### C5: insufficient-funds withdrawals -/

/-- C5: a withdrawal with matching client id and a valid non-negative
amount exceeding the current total balance is stored failed under its tx,
is not appended to the dispute window, and moves no balance. -/
theorem insufficient_withdrawal_marks_failed (s : Client) (w : Withdrawal)
    (hc : w.client_id = s.id) (_hamt : 0 ≤ w.amount)
    (hover : s.total_balance < w.amount) :
    (s.process_withdrawal w).processed_transactions w.tx_id =
        some (Transaction.withdrawal { w with failed := true }) ∧
    (s.process_withdrawal w).dispute_window = s.dispute_window ∧
    (s.process_withdrawal w).available_balance = s.available_balance ∧
    (s.process_withdrawal w).held_balance = s.held_balance ∧
    (s.process_withdrawal w).total_balance = s.total_balance := by
  unfold Client.process_withdrawal
  rw [if_neg (not_not_intro hc), if_pos hover]
  refine ⟨?_, rfl, rfl, rfl, rfl⟩
  simp

/-- Witness for C5: a withdrawal of 5 against a fresh (zero-balance)
client fails and is stored failed without entering the window. -/
theorem insufficient_withdrawal_marks_failed_witness :
    ((Client.new 1).process_withdrawal
        { client_id := 1, tx_id := 2, amount := 5, disputed := false,
          resolved := false, failed := false }).processed_transactions 2 =
      some (Transaction.withdrawal
        { client_id := 1, tx_id := 2, amount := 5, disputed := false,
          resolved := false, failed := true }) ∧
    ((Client.new 1).process_withdrawal
        { client_id := 1, tx_id := 2, amount := 5, disputed := false,
          resolved := false, failed := false }).dispute_window =
      (Client.new 1).dispute_window ∧
    ((Client.new 1).process_withdrawal
        { client_id := 1, tx_id := 2, amount := 5, disputed := false,
          resolved := false, failed := false }).available_balance =
      (Client.new 1).available_balance ∧
    ((Client.new 1).process_withdrawal
        { client_id := 1, tx_id := 2, amount := 5, disputed := false,
          resolved := false, failed := false }).held_balance =
      (Client.new 1).held_balance ∧
    ((Client.new 1).process_withdrawal
        { client_id := 1, tx_id := 2, amount := 5, disputed := false,
          resolved := false, failed := false }).total_balance =
      (Client.new 1).total_balance :=
  insufficient_withdrawal_marks_failed (Client.new 1) _ rfl
    (by norm_num) (show (0:ℚ) < 5 by norm_num)

/-! ### C6: dispute followed by resolve is an identity on balances -/

/-- C6: for a stored deposit that is neither disputed nor resolved, a
dispute for its tx immediately followed by a resolve for the same tx
(matching client ids) restores available, held and total balances. -/
theorem dispute_resolve_identity_on_deposit (s : Client) (txid : Nat)
    (d : Deposit)
    (h : s.processed_transactions txid = some (Transaction.deposit d))
    (hd : d.disputed = false) (hr : d.resolved = false) :
    ((s.process_dispute { client_id := d.client_id, tx_id := txid
        }).process_resolve { client_id := d.client_id, tx_id := txid }
          none).available_balance = s.available_balance ∧
    ((s.process_dispute { client_id := d.client_id, tx_id := txid
        }).process_resolve { client_id := d.client_id, tx_id := txid }
          none).held_balance = s.held_balance ∧
    ((s.process_dispute { client_id := d.client_id, tx_id := txid
        }).process_resolve { client_id := d.client_id, tx_id := txid }
          none).total_balance = s.total_balance := by
  rw [process_dispute_deposit_eq s txid d h hd hr]
  have h2 : (mapInsert s.processed_transactions txid
      (Transaction.deposit { d with disputed := true })) txid =
      some (Transaction.deposit { d with disputed := true }) := by simp
  rw [process_resolve_deposit_eq _ txid { d with disputed := true } h2 rfl hr]
  refine ⟨?_, ?_, rfl⟩
  · show s.available_balance - d.amount + d.amount = s.available_balance
    ring
  · show s.held_balance + d.amount - d.amount = s.held_balance
    ring

/-- A concrete client state holding one undisputed deposit of 1500. -/
def oneDepositState : Client :=
  { id := 1, available_balance := 1500, held_balance := 0,
    total_balance := 1500, locked := false,
    processed_transactions :=
      mapInsert (fun _ => none) 1
        (Transaction.deposit
          { client_id := 1, tx_id := 1, amount := 1500, disputed := false,
            resolved := false }),
    dispute_window := [1] }

/-- Witness for C6 on the concrete one-deposit state. -/
theorem dispute_resolve_identity_on_deposit_witness :
    ((oneDepositState.process_dispute { client_id := 1, tx_id := 1
        }).process_resolve { client_id := 1, tx_id := 1 }
          none).available_balance = oneDepositState.available_balance ∧
    ((oneDepositState.process_dispute { client_id := 1, tx_id := 1
        }).process_resolve { client_id := 1, tx_id := 1 }
          none).held_balance = oneDepositState.held_balance ∧
    ((oneDepositState.process_dispute { client_id := 1, tx_id := 1
        }).process_resolve { client_id := 1, tx_id := 1 }
          none).total_balance = oneDepositState.total_balance :=
  dispute_resolve_identity_on_deposit oneDepositState 1
    { client_id := 1, tx_id := 1, amount := 1500, disputed := false,
      resolved := false }
    (by simp [oneDepositState]) rfl rfl

/-! ### C7: chargeback on a disputed deposit -/

/-- C7: a chargeback on a stored, disputed, unresolved deposit with
matching client id marks it resolved, decreases held and total by the
deposit amount, leaves available unchanged, and locks the account; and a
dispute immediately followed by a chargeback on an undisputed unresolved
deposit reduces total by the deposit amount and locks the account. -/
theorem chargeback_on_disputed_deposit (s : Client) (txid : Nat)
    (d : Deposit)
    (h : s.processed_transactions txid = some (Transaction.deposit d))
    (hr : d.resolved = false) :
    (d.disputed = true →
      (s.process_chargeback { client_id := d.client_id, tx_id := txid
          }).processed_transactions txid =
        some (Transaction.deposit { d with resolved := true }) ∧
      (s.process_chargeback { client_id := d.client_id, tx_id := txid
          }).held_balance = s.held_balance - d.amount ∧
      (s.process_chargeback { client_id := d.client_id, tx_id := txid
          }).total_balance = s.total_balance - d.amount ∧
      (s.process_chargeback { client_id := d.client_id, tx_id := txid
          }).available_balance = s.available_balance ∧
      (s.process_chargeback { client_id := d.client_id, tx_id := txid
          }).locked = true) ∧
    (d.disputed = false →
      ((s.process_dispute { client_id := d.client_id, tx_id := txid
          }).process_chargeback { client_id := d.client_id, tx_id := txid
          }).total_balance = s.total_balance - d.amount ∧
      ((s.process_dispute { client_id := d.client_id, tx_id := txid
          }).process_chargeback { client_id := d.client_id, tx_id := txid
          }).locked = true) := by
  constructor
  · intro hdisp
    rw [process_chargeback_deposit_eq s txid d h hdisp hr]
    refine ⟨?_, rfl, rfl, rfl, rfl⟩
    simp
  · intro hdisp
    rw [process_dispute_deposit_eq s txid d h hdisp hr]
    have h2 : (mapInsert s.processed_transactions txid
        (Transaction.deposit { d with disputed := true })) txid =
        some (Transaction.deposit { d with disputed := true }) := by simp
    rw [process_chargeback_deposit_eq _ txid { d with disputed := true }
      h2 rfl hr]
    exact ⟨rfl, rfl⟩

/-- Witness for C7 on the concrete one-deposit state: the dispute-then-
chargeback law, and the direct chargeback effects on the disputed state. -/
theorem chargeback_on_disputed_deposit_witness :
    (((oneDepositState.process_dispute { client_id := 1, tx_id := 1
        }).process_chargeback { client_id := 1, tx_id := 1
        }).total_balance = oneDepositState.total_balance - 1500 ∧
      ((oneDepositState.process_dispute { client_id := 1, tx_id := 1
        }).process_chargeback { client_id := 1, tx_id := 1
        }).locked = true) := by
  have h := chargeback_on_disputed_deposit oneDepositState 1
    { client_id := 1, tx_id := 1, amount := 1500, disputed := false,
      resolved := false }
    (by simp [oneDepositState]) rfl
  exact h.2 rfl

/-! ### C8: disputing a failed withdrawal -/

/-- C8 counterexample: disputing a stored failed withdrawal is not
rejected; it changes the stored record (the disputed flag becomes true),
contradicting the claim that the record is left unchanged. -/
theorem dispute_on_failed_withdrawal_changes_record :
    ((Client.new 1).process_activity
        [withdrawalRow 1 1 5, disputeRow 1 1]).processed_transactions 1 =
      some (Transaction.withdrawal
        { client_id := 1, tx_id := 1, amount := 5, disputed := true,
          resolved := false, failed := true }) ∧
    ((Client.new 1).process_activity
        [withdrawalRow 1 1 5]).processed_transactions 1 =
      some (Transaction.withdrawal
        { client_id := 1, tx_id := 1, amount := 5, disputed := false,
          resolved := false, failed := true }) ∧
    ((Client.new 1).process_activity
        [withdrawalRow 1 1 5, disputeRow 1 1]).processed_transactions 1 ≠
      ((Client.new 1).process_activity
        [withdrawalRow 1 1 5]).processed_transactions 1 := by
  refine ⟨?_, ?_, ?_⟩ <;>
    norm_num [Client.process_activity, Client.process_transaction,
      Client.apply_event, Client.process_deposit, Client.process_withdrawal,
      Client.process_dispute, Client.process_resolve,
      Client.process_chargeback, Client.chargeback_arm, Client.cascade_loop,
      Client.reverse_withdrawal, Client.finalize_transaction,
      Deposit.try_from, Withdrawal.try_from, Dispute.try_from,
      Resolve.try_from, Chargeback.try_from, truncate_to_decimal_places,
      f64MAX, f64MIN, mapInsert, mapRemove, WINDOW_SIZE, Client.new,
      depositRow, withdrawalRow, disputeRow, resolveRow, chargebackRow,
      List.findIdx?]

/-- C8 amended: a dispute referencing a stored failed withdrawal that is
not yet disputed or resolved, with matching client id, is accepted: the
stored record is marked disputed, and available, held and total balances
are all unchanged. -/
theorem dispute_on_failed_withdrawal_marks_disputed (s : Client)
    (dispute : Dispute) (w : Withdrawal)
    (h : s.processed_transactions dispute.tx_id =
      some (Transaction.withdrawal w))
    (hf : w.failed = true) (hd : w.disputed = false) (hr : w.resolved = false)
    (hc : dispute.client_id = w.client_id) :
    s.process_dispute dispute =
      { s with
        processed_transactions :=
          mapInsert s.processed_transactions dispute.tx_id
            (Transaction.withdrawal { w with disputed := true }) } := by
  unfold Client.process_dispute
  rw [h]
  dsimp only
  split
  · rename_i hcond
    simp [hd, hr, hc] at hcond
  · rfl

/-- A concrete client state holding one failed withdrawal of 5. -/
def oneFailedWithdrawalState : Client :=
  { id := 1, available_balance := 0, held_balance := 0,
    total_balance := 0, locked := false,
    processed_transactions :=
      mapInsert (fun _ => none) 1
        (Transaction.withdrawal
          { client_id := 1, tx_id := 1, amount := 5, disputed := false,
            resolved := false, failed := true }),
    dispute_window := [] }

/-- Witness for the amended C8 on the concrete failed-withdrawal state. -/
theorem dispute_on_failed_withdrawal_marks_disputed_witness :
    oneFailedWithdrawalState.process_dispute { client_id := 1, tx_id := 1 } =
      { oneFailedWithdrawalState with
        processed_transactions :=
          mapInsert oneFailedWithdrawalState.processed_transactions 1
            (Transaction.withdrawal
              { client_id := 1, tx_id := 1, amount := 5, disputed := true,
                resolved := false, failed := true }) } :=
  dispute_on_failed_withdrawal_marks_disputed oneFailedWithdrawalState
    { client_id := 1, tx_id := 1 }
    { client_id := 1, tx_id := 1, amount := 5, disputed := false,
      resolved := false, failed := true }
    (by simp [oneFailedWithdrawalState]) rfl rfl rfl rfl

/-! ### C9: window eviction happens before every event variant -/

/-- Record-mode `process_resolve` only adjusts held and available. -/
theorem process_resolve_rec_shape (s : Client) (r : Resolve)
    (t : Transaction) :
    ∃ hb ab, s.process_resolve r (some t) =
      { s with held_balance := hb, available_balance := ab } := by
  cases t with
  | deposit d =>
      show ∃ hb ab,
        (if ¬d.disputed ∨ d.resolved ∨ r.client_id ≠ d.client_id then s
         else
           { s with
             held_balance := s.held_balance - d.amount,
             available_balance := s.available_balance + d.amount }) =
          { s with held_balance := hb, available_balance := ab }
      split
      · exact ⟨s.held_balance, s.available_balance, rfl⟩
      · exact ⟨s.held_balance - d.amount, s.available_balance + d.amount, rfl⟩
  | withdrawal w =>
      show ∃ hb ab,
        (if ¬w.disputed ∨ w.resolved ∨ r.client_id ≠ w.client_id then s
         else if w.failed then s
         else
           { s with
             held_balance := s.held_balance + w.amount,
             available_balance := s.available_balance - w.amount }) =
          { s with held_balance := hb, available_balance := ab }
      split
      · exact ⟨s.held_balance, s.available_balance, rfl⟩
      · split
        · exact ⟨s.held_balance, s.available_balance, rfl⟩
        · exact ⟨s.held_balance + w.amount, s.available_balance - w.amount,
            rfl⟩
  | dispute d => exact ⟨s.held_balance, s.available_balance, rfl⟩
  | resolve r2 => exact ⟨s.held_balance, s.available_balance, rfl⟩
  | chargeback c => exact ⟨s.held_balance, s.available_balance, rfl⟩

/-- C9: whenever the dispute window is full (1000 entries), processing
any event — of every variant — first finalizes the oldest window entry:
that entry's record leaves the processed map, its window slot is popped,
a disputed unresolved deposit or (non-failed) withdrawal is auto-resolved
into the balances, and only then is the event applied. -/
theorem window_eviction_before_every_event (s : Client)
    (raw : RawTransaction) (front : Nat) (rest : List Nat)
    (hlen : WINDOW_SIZE ≤ s.dispute_window.length)
    (hwin : s.dispute_window = front :: rest) :
    s.process_transaction raw = s.finalize_transaction.apply_event raw ∧
    s.finalize_transaction.dispute_window = rest ∧
    s.finalize_transaction.processed_transactions front = none ∧
    (∀ d : Deposit,
      s.processed_transactions front = some (Transaction.deposit d) →
      d.disputed = true → d.resolved = false →
      s.finalize_transaction.held_balance = s.held_balance - d.amount ∧
      s.finalize_transaction.available_balance =
        s.available_balance + d.amount) ∧
    (∀ w : Withdrawal,
      s.processed_transactions front = some (Transaction.withdrawal w) →
      w.disputed = true → w.resolved = false → w.failed = false →
      s.finalize_transaction.held_balance = s.held_balance + w.amount ∧
      s.finalize_transaction.available_balance =
        s.available_balance - w.amount) := by
  have hstep : s.process_transaction raw =
      s.finalize_transaction.apply_event raw := by
    unfold Client.process_transaction
    rw [if_pos hlen]
  have hfin : s.finalize_transaction.dispute_window = rest ∧
      s.finalize_transaction.processed_transactions front = none ∧
      (∀ d : Deposit,
        s.processed_transactions front = some (Transaction.deposit d) →
        d.disputed = true → d.resolved = false →
        s.finalize_transaction.held_balance = s.held_balance - d.amount ∧
        s.finalize_transaction.available_balance =
          s.available_balance + d.amount) ∧
      (∀ w : Withdrawal,
        s.processed_transactions front = some (Transaction.withdrawal w) →
        w.disputed = true → w.resolved = false → w.failed = false →
        s.finalize_transaction.held_balance = s.held_balance + w.amount ∧
        s.finalize_transaction.available_balance =
          s.available_balance - w.amount) := by
    unfold Client.finalize_transaction
    rw [hwin]
    dsimp only
    cases hm : s.processed_transactions front with
    | none =>
        dsimp only
        refine ⟨rfl, hm, ?_, ?_⟩
        · intro d hd
          cases hd
        · intro w hw
          cases hw
    | some t =>
        dsimp only
        cases t with
        | deposit d =>
            dsimp only
            by_cases hdu : d.disputed = true ∧ ¬d.resolved = true
            · rw [if_pos hdu]
              have hres := process_resolve_rec_shape
                { s with
                  dispute_window := rest,
                  processed_transactions :=
                    mapRemove s.processed_transactions front }
                { client_id := d.client_id, tx_id := d.tx_id }
                (Transaction.deposit d)
              rcases hres with ⟨hb, ab, heq⟩
              have hval : ({ s with
                  dispute_window := rest,
                  processed_transactions :=
                    mapRemove s.processed_transactions front
                } : Client).process_resolve
                  { client_id := d.client_id, tx_id := d.tx_id }
                  (some (Transaction.deposit d)) =
                  { s with
                    dispute_window := rest,
                    processed_transactions :=
                      mapRemove s.processed_transactions front,
                    held_balance := s.held_balance - d.amount,
                    available_balance := s.available_balance + d.amount } := by
                show (if ¬d.disputed ∨ d.resolved ∨
                    ({ client_id := d.client_id, tx_id := d.tx_id } :
                      Resolve).client_id ≠ d.client_id then
                    ({ s with
                      dispute_window := rest,
                      processed_transactions :=
                        mapRemove s.processed_transactions front } : Client)
                  else _) = _
                rw [if_neg]
                simp [hdu.1, fun hh => hdu.2 hh]
              rw [hval]
              refine ⟨rfl, by simp, ?_, ?_⟩
              · intro d2 hd2 _ _
                cases hd2
                exact ⟨rfl, rfl⟩
              · intro w2 hw2
                cases hw2
            · rw [if_neg hdu]
              refine ⟨rfl, by simp, ?_, ?_⟩
              · intro d2 hd2 hdisp hres
                cases hd2
                exact absurd ⟨hdisp, fun hh => by rw [hres] at hh; cases hh⟩
                  hdu
              · intro w2 hw2
                cases hw2
        | withdrawal w =>
            dsimp only
            by_cases hdu : w.disputed = true ∧ ¬w.resolved = true
            · rw [if_pos hdu]
              have hval : ({ s with
                  dispute_window := rest,
                  processed_transactions :=
                    mapRemove s.processed_transactions front
                } : Client).process_resolve
                  { client_id := w.client_id, tx_id := w.tx_id }
                  (some (Transaction.withdrawal w)) =
                  if w.failed then
                    { s with
                      dispute_window := rest,
                      processed_transactions :=
                        mapRemove s.processed_transactions front }
                  else
                    { s with
                      dispute_window := rest,
                      processed_transactions :=
                        mapRemove s.processed_transactions front,
                      held_balance := s.held_balance + w.amount,
                      available_balance := s.available_balance - w.amount
                    } := by
                show (if ¬w.disputed ∨ w.resolved ∨
                    ({ client_id := w.client_id, tx_id := w.tx_id } :
                      Resolve).client_id ≠ w.client_id then
                    ({ s with
                      dispute_window := rest,
                      processed_transactions :=
                        mapRemove s.processed_transactions front } : Client)
                  else _) = _
                rw [if_neg]
                simp [hdu.1, fun hh => hdu.2 hh]
              rw [hval]
              by_cases hf : w.failed = true
              · rw [if_pos hf]
                refine ⟨rfl, by simp, ?_, ?_⟩
                · intro d2 hd2
                  cases hd2
                · intro w2 hw2 _ _ hf2
                  cases hw2
                  rw [hf] at hf2
                  cases hf2
              · rw [if_neg hf]
                refine ⟨rfl, by simp, ?_, ?_⟩
                · intro d2 hd2
                  cases hd2
                · intro w2 hw2 _ _ _
                  cases hw2
                  exact ⟨rfl, rfl⟩
            · rw [if_neg hdu]
              refine ⟨rfl, by simp, ?_, ?_⟩
              · intro d2 hd2
                cases hd2
              · intro w2 hw2 hdisp hres _
                cases hw2
                exact absurd ⟨hdisp, fun hh => by rw [hres] at hh; cases hh⟩
                  hdu
        | dispute d =>
            dsimp only
            refine ⟨rfl, by simp, ?_, ?_⟩
            · intro d2 hd2
              cases hd2
            · intro w2 hw2
              cases hw2
        | resolve r =>
            dsimp only
            refine ⟨rfl, by simp, ?_, ?_⟩
            · intro d2 hd2
              cases hd2
            · intro w2 hw2
              cases hw2
        | chargeback c =>
            dsimp only
            refine ⟨rfl, by simp, ?_, ?_⟩
            · intro d2 hd2
              cases hd2
            · intro w2 hw2
              cases hw2
  exact ⟨hstep, hfin.1, hfin.2.1, hfin.2.2.1, hfin.2.2.2⟩

/-- A concrete client state whose dispute window is full (1000 entries). -/
def fullWindowState : Client :=
  { id := 1, available_balance := 5, held_balance := 0, total_balance := 5,
    locked := false, processed_transactions := fun _ => none,
    dispute_window := 7 :: List.replicate 999 7 }

/-- Witness for C9: with a full window, even a dispute event first evicts
the oldest entry. -/
theorem window_eviction_before_every_event_witness :
    fullWindowState.process_transaction (disputeRow 1 99) =
      fullWindowState.finalize_transaction.apply_event (disputeRow 1 99) ∧
    fullWindowState.finalize_transaction.dispute_window =
      List.replicate 999 7 ∧
    fullWindowState.finalize_transaction.processed_transactions 7 = none := by
  have h := window_eviction_before_every_event fullWindowState
    (disputeRow 1 99) 7 (List.replicate 999 7)
    (by norm_num [fullWindowState, List.length_replicate, WINDOW_SIZE]) rfl
  exact ⟨h.1, h.2.1, h.2.2.1⟩

/-! ### C2: totals after a chargeback -/

/-- C2 counterexample: a deposit of 100, a withdrawal of 60, disputes of
both, and a chargeback of the deposit.  The chargeback is applied (the
account ends locked), the cascade finds no reversible withdrawal (the
withdrawal is disputed), and the total balance ends at -60 < 0. -/
theorem chargeback_can_leave_total_negative :
    ((Client.new 1).process_activity
        [depositRow 1 1 100, withdrawalRow 1 2 60, disputeRow 1 1,
          disputeRow 1 2, chargebackRow 1 1]).locked = true ∧
    ((Client.new 1).process_activity
        [depositRow 1 1 100, withdrawalRow 1 2 60, disputeRow 1 1,
          disputeRow 1 2, chargebackRow 1 1]).total_balance < 0 := by
  constructor <;>
    norm_num [Client.process_activity, Client.process_transaction,
      Client.apply_event, Client.process_deposit, Client.process_withdrawal,
      Client.process_dispute, Client.process_resolve,
      Client.process_chargeback, Client.chargeback_arm, Client.cascade_loop,
      Client.reverse_withdrawal, Client.finalize_transaction,
      Deposit.try_from, Withdrawal.try_from, Dispute.try_from,
      Resolve.try_from, Chargeback.try_from, truncate_to_decimal_places,
      f64MAX, f64MIN, mapInsert, mapRemove, WINDOW_SIZE, Client.new,
      depositRow, withdrawalRow, disputeRow, resolveRow, chargebackRow,
      List.findIdx?]

/-- The chargeback arm with the early exit of the cascade removed: every
window entry from the charged-back position onward is passed to
`reverse_withdrawal`. -/
def Client.cascade_exhaustive (s : Client) (chargeback : Chargeback) :
    Client :=
  let s1 := s.process_chargeback chargeback
  match s1.dispute_window.findIdx? (fun id => id == chargeback.tx_id) with
  | some window_start =>
      List.foldl Client.reverse_withdrawal s1
        ((s1.dispute_window.drop window_start).reverse)
  | none => s1

/-- The cascade loop either reaches a non-negative total or runs to the
end of its id list with no early exit. -/
theorem cascade_loop_nonneg_or_foldl (ids : List Nat) :
    ∀ s : Client, 0 ≤ (s.cascade_loop ids).total_balance ∨
      s.cascade_loop ids = List.foldl Client.reverse_withdrawal s ids := by
  induction ids with
  | nil => intro s; right; rfl
  | cons id rest ih =>
      intro s
      by_cases h0 : 0 ≤ s.total_balance
      · left
        show 0 ≤ (if 0 ≤ s.total_balance then s
          else Client.cascade_loop (s.reverse_withdrawal id) rest
          ).total_balance
        rw [if_pos h0]
        exact h0
      · have hstep : s.cascade_loop (id :: rest) =
            (s.reverse_withdrawal id).cascade_loop rest := by
          show (if 0 ≤ s.total_balance then s
            else Client.cascade_loop (s.reverse_withdrawal id) rest) = _
          rw [if_neg h0]
        rcases ih (s.reverse_withdrawal id) with hl | hr
        · left
          rw [hstep]
          exact hl
        · right
          rw [hstep, hr]
          rfl

/-- C2 amended: immediately after any chargeback event is applied
(cascade included), either the client's total balance is non-negative, or
the cascade has scanned the entire window segment from the charged-back
tx onward with no early exit (every entry was offered to the reversal
rule) and the total may remain negative. -/
theorem chargeback_total_nonneg_or_cascade_exhausted (s : Client)
    (chargeback : Chargeback) :
    0 ≤ (s.chargeback_arm chargeback).total_balance ∨
      s.chargeback_arm chargeback = s.cascade_exhaustive chargeback := by
  unfold Client.chargeback_arm Client.cascade_exhaustive
  dsimp only
  cases hfi : (s.process_chargeback chargeback).dispute_window.findIdx?
      (fun id => id == chargeback.tx_id) with
  | none =>
      right
      rfl
  | some window_start =>
      dsimp only
      by_cases hneg :
        (s.process_chargeback chargeback).total_balance < 0
      · rw [if_pos hneg]
        exact cascade_loop_nonneg_or_foldl _ _
      · rw [if_neg hneg]
        left
        exact le_of_not_lt hneg

/-! ### C1: the cascade reversal follows the spec -/

/-- The cascade scan as worded in the spec: traverse the given ids (the
window from the charged-back position onward, most recent first); for
each id referring to a stored withdrawal that is (not disputed and not
failed) or is resolved, add its amount to available and total and mark it
failed; stop as soon as the total is non-negative. -/
def Client.cascade_scan_spec (s : Client) : List Nat → Client
  | [] => s
  | id :: rest =>
      if 0 ≤ s.total_balance then s
      else
        match s.processed_transactions id with
        | some (Transaction.withdrawal w) =>
            if (¬w.disputed ∧ ¬w.failed) ∨ w.resolved then
              Client.cascade_scan_spec
                { s with
                  available_balance := s.available_balance + w.amount,
                  total_balance := s.total_balance + w.amount,
                  processed_transactions :=
                    mapInsert s.processed_transactions id
                      (Transaction.withdrawal { w with failed := true }) }
                rest
            else Client.cascade_scan_spec s rest
        | _ => Client.cascade_scan_spec s rest

/-- The implementation's cascade loop computes the spec's cascade scan. -/
theorem cascade_loop_eq_scan_spec (ids : List Nat) :
    ∀ s : Client, s.cascade_loop ids = s.cascade_scan_spec ids := by
  induction ids with
  | nil => intro s; rfl
  | cons id rest ih =>
      intro s
      by_cases h0 : 0 ≤ s.total_balance
      · have e1 : s.cascade_loop (id :: rest) = s := by
          simp only [Client.cascade_loop]
          rw [if_pos h0]
        have e2 : s.cascade_scan_spec (id :: rest) = s := by
          simp only [Client.cascade_scan_spec]
          rw [if_pos h0]
        rw [e1, e2]
      · have e1 : s.cascade_loop (id :: rest) =
            (s.reverse_withdrawal id).cascade_loop rest := by
          simp only [Client.cascade_loop]
          rw [if_neg h0]
        rw [e1, ih]
        cases hm : s.processed_transactions id with
        | none =>
            have er : s.reverse_withdrawal id = s := by
              unfold Client.reverse_withdrawal
              rw [hm]
            have e2 : s.cascade_scan_spec (id :: rest) =
                s.cascade_scan_spec rest := by
              simp only [Client.cascade_scan_spec]
              rw [if_neg h0, hm]
            rw [er, e2]
        | some t =>
            cases t with
            | withdrawal w =>
                by_cases hg : (¬w.failed = true ∧ ¬w.disputed = true) ∨
                    w.resolved = true
                · have hg2 : (¬w.disputed = true ∧ ¬w.failed = true) ∨
                      w.resolved = true := by tauto
                  have er : s.reverse_withdrawal id =
                      { s with
                        available_balance := s.available_balance + w.amount,
                        total_balance := s.total_balance + w.amount,
                        processed_transactions :=
                          mapInsert s.processed_transactions id
                            (Transaction.withdrawal
                              { w with failed := true }) } := by
                    unfold Client.reverse_withdrawal
                    rw [hm]
                    dsimp only
                    rw [if_pos hg]
                  have e2 : s.cascade_scan_spec (id :: rest) =
                      Client.cascade_scan_spec
                        { s with
                          available_balance := s.available_balance + w.amount,
                          total_balance := s.total_balance + w.amount,
                          processed_transactions :=
                            mapInsert s.processed_transactions id
                              (Transaction.withdrawal
                                { w with failed := true }) } rest := by
                    simp only [Client.cascade_scan_spec]
                    rw [if_neg h0, hm]
                    dsimp only
                    rw [if_pos hg2]
                  rw [er, e2]
                · have hg2 : ¬((¬w.disputed = true ∧ ¬w.failed = true) ∨
                      w.resolved = true) := by tauto
                  have er : s.reverse_withdrawal id = s := by
                    unfold Client.reverse_withdrawal
                    rw [hm]
                    dsimp only
                    rw [if_neg hg]
                  have e2 : s.cascade_scan_spec (id :: rest) =
                      s.cascade_scan_spec rest := by
                    simp only [Client.cascade_scan_spec]
                    rw [if_neg h0, hm]
                    dsimp only
                    rw [if_neg hg2]
                  rw [er, e2]
            | deposit d =>
                have er : s.reverse_withdrawal id = s := by
                  unfold Client.reverse_withdrawal
                  rw [hm]
                have e2 : s.cascade_scan_spec (id :: rest) =
                    s.cascade_scan_spec rest := by
                  simp only [Client.cascade_scan_spec]
                  rw [if_neg h0, hm]
                rw [er, e2]
            | dispute d2 =>
                have er : s.reverse_withdrawal id = s := by
                  unfold Client.reverse_withdrawal
                  rw [hm]
                have e2 : s.cascade_scan_spec (id :: rest) =
                    s.cascade_scan_spec rest := by
                  simp only [Client.cascade_scan_spec]
                  rw [if_neg h0, hm]
                rw [er, e2]
            | resolve r2 =>
                have er : s.reverse_withdrawal id = s := by
                  unfold Client.reverse_withdrawal
                  rw [hm]
                have e2 : s.cascade_scan_spec (id :: rest) =
                    s.cascade_scan_spec rest := by
                  simp only [Client.cascade_scan_spec]
                  rw [if_neg h0, hm]
                rw [er, e2]
            | chargeback c2 =>
                have er : s.reverse_withdrawal id = s := by
                  unfold Client.reverse_withdrawal
                  rw [hm]
                have e2 : s.cascade_scan_spec (id :: rest) =
                    s.cascade_scan_spec rest := by
                  simp only [Client.cascade_scan_spec]
                  rw [if_neg h0, hm]
                rw [er, e2]

/-- A member of a list is found by `findIdx?`. -/
theorem exists_findIdx_of_mem (a : Nat) (l : List Nat) (h : a ∈ l) :
    ∃ i, l.findIdx? (fun id => id == a) = some i := by
  cases hfi : l.findIdx? (fun id => id == a) with
  | some i => exact ⟨i, rfl⟩
  | none =>
      have hall := List.findIdx?_eq_none_iff.mp hfi a h
      simp at hall

/-- Record-mode resolve leaves the locked flag and total balance alone. -/
theorem process_resolve_rec_locked_total (s : Client) (r : Resolve)
    (t : Transaction) :
    (s.process_resolve r (some t)).locked = s.locked ∧
    (s.process_resolve r (some t)).total_balance = s.total_balance := by
  obtain ⟨hb, ab, heq⟩ := process_resolve_rec_shape s r t
  rw [heq]
  exact ⟨rfl, rfl⟩

/-- Window finalization leaves the locked flag and total balance alone. -/
theorem finalize_transaction_fields (s : Client) :
    s.finalize_transaction.locked = s.locked ∧
    s.finalize_transaction.total_balance = s.total_balance := by
  unfold Client.finalize_transaction
  split
  · exact ⟨rfl, rfl⟩
  · dsimp only
    split
    · exact ⟨rfl, rfl⟩
    · rename_i t heqp
      cases t with
      | deposit d =>
          dsimp only
          split
          · exact ⟨(process_resolve_rec_locked_total _ _ _).1,
              (process_resolve_rec_locked_total _ _ _).2⟩
          · exact ⟨rfl, rfl⟩
      | withdrawal w =>
          dsimp only
          split
          · exact ⟨(process_resolve_rec_locked_total _ _ _).1,
              (process_resolve_rec_locked_total _ _ _).2⟩
          · exact ⟨rfl, rfl⟩
      | dispute d => exact ⟨rfl, rfl⟩
      | resolve r => exact ⟨rfl, rfl⟩
      | chargeback c => exact ⟨rfl, rfl⟩

/-- If a chargeback leaves the total balance negative (starting from an
unlocked invariant state), it was a successful deposit chargeback: the
charged-back tx refers to a deposit in the processed map afterwards. -/
theorem process_chargeback_neg_total (s0 : Client) (cb : Chargeback)
    (hInv : ClientInv s0) (hl : s0.locked = false)
    (hneg : (s0.process_chargeback cb).total_balance < 0) :
    ∃ d : Deposit,
      (s0.process_chargeback cb).processed_transactions cb.tx_id =
        some (Transaction.deposit d) := by
  have ht0 := hInv.total_nonneg hl
  cases hm : s0.processed_transactions cb.tx_id with
  | none =>
      have he : s0.process_chargeback cb = s0 := by
        unfold Client.process_chargeback
        rw [hm]
      rw [he] at hneg
      exact absurd hneg (not_lt.mpr ht0)
  | some t =>
      cases t with
      | deposit d =>
          by_cases hg : ¬d.disputed = true ∨ d.resolved = true ∨
              cb.client_id ≠ d.client_id
          · have he : s0.process_chargeback cb = s0 := by
              unfold Client.process_chargeback
              rw [hm]
              dsimp only
              rw [if_pos hg]
            rw [he] at hneg
            exact absurd hneg (not_lt.mpr ht0)
          · have he : s0.process_chargeback cb =
                { s0 with
                  held_balance := s0.held_balance - d.amount,
                  total_balance := s0.total_balance - d.amount,
                  locked := true,
                  processed_transactions :=
                    mapInsert s0.processed_transactions cb.tx_id
                      (Transaction.deposit { d with resolved := true }) } := by
              unfold Client.process_chargeback
              rw [hm]
              dsimp only
              rw [if_neg hg]
            rw [he]
            exact ⟨{ d with resolved := true }, by simp⟩
      | withdrawal w =>
          by_cases hg : ¬w.disputed = true ∨ w.resolved = true ∨
              cb.client_id ≠ w.client_id
          · have he : s0.process_chargeback cb = s0 := by
              unfold Client.process_chargeback
              rw [hm]
              dsimp only
              rw [if_pos hg]
            rw [he] at hneg
            exact absurd hneg (not_lt.mpr ht0)
          · by_cases hf : w.failed = true
            · have he : s0.process_chargeback cb =
                  { s0 with
                    locked := true,
                    processed_transactions :=
                      mapInsert s0.processed_transactions cb.tx_id
                        (Transaction.withdrawal
                          { w with resolved := true }) } := by
                unfold Client.process_chargeback
                rw [hm]
                dsimp only
                rw [if_neg hg, if_pos hf]
              rw [he] at hneg
              exact absurd hneg (not_lt.mpr ht0)
            · have he : s0.process_chargeback cb =
                  { s0 with
                    held_balance := s0.held_balance + w.amount,
                    total_balance := s0.total_balance + w.amount,
                    locked := true,
                    processed_transactions :=
                      mapInsert s0.processed_transactions cb.tx_id
                        (Transaction.withdrawal
                          { w with resolved := true }) } := by
                unfold Client.process_chargeback
                rw [hm]
                dsimp only
                rw [if_neg hg, if_neg hf]
              have hw : (0:ℚ) ≤ w.amount := hInv.amt_nonneg _ _ hm
              rw [he] at hneg
              have hcontra : (0:ℚ) ≤ s0.total_balance + w.amount :=
                add_nonneg ht0 hw
              exact absurd hneg (not_lt.mpr hcontra)
      | dispute d2 =>
          have he : s0.process_chargeback cb = s0 := by
            unfold Client.process_chargeback
            rw [hm]
          rw [he] at hneg
          exact absurd hneg (not_lt.mpr ht0)
      | resolve r2 =>
          have he : s0.process_chargeback cb = s0 := by
            unfold Client.process_chargeback
            rw [hm]
          rw [he] at hneg
          exact absurd hneg (not_lt.mpr ht0)
      | chargeback c2 =>
          have he : s0.process_chargeback cb = s0 := by
            unfold Client.process_chargeback
            rw [hm]
          rw [he] at hneg
          exact absurd hneg (not_lt.mpr ht0)

/-- C1: for every per-client event sequence, when a chargeback is applied
(after the usual window admission) and leaves a negative running total,
the charged-back tx is found in the dispute window, and the whole event
step computes the spec's cascade: the window is scanned from that
position onward most recent first, every withdrawal that is (not disputed
and not failed) or resolved is reversed into available and total and
marked failed, stopping as soon as the total is non-negative. -/
theorem chargeback_cascade_follows_spec (cid : Nat)
    (events : List RawTransaction) (raw : RawTransaction) (cb : Chargeback)
    (s s0 s1 : Client)
    (hs : s = (Client.new cid).process_activity events)
    (hlock : s.locked = false)
    (hcb : Chargeback.try_from raw = some cb)
    (hs0 : s0 = if WINDOW_SIZE ≤ s.dispute_window.length
      then s.finalize_transaction else s)
    (hs1 : s1 = s0.process_chargeback cb)
    (hneg : s1.total_balance < 0) :
    ∃ i, s1.dispute_window.findIdx? (fun id => id == cb.tx_id) = some i ∧
      s.process_transaction raw =
        s1.cascade_scan_spec ((s1.dispute_window.drop i).reverse) := by
  have hInv : ClientInv s := hs ▸ clientInv_reachable cid events
  have hInv0 : ClientInv s0 := by
    rw [hs0]
    split
    · exact clientInv_finalize_transaction s hInv
    · exact hInv
  have hl0 : s0.locked = false := by
    rw [hs0]
    split
    · rw [(finalize_transaction_fields s).1]
      exact hlock
    · exact hlock
  have hInv1 : ClientInv s1 := by
    rw [hs1]
    exact clientInv_process_chargeback _ _ hInv0
  have hneg1 : (s0.process_chargeback cb).total_balance < 0 := by
    rw [← hs1]
    exact hneg
  obtain ⟨d, hd⟩ := process_chargeback_neg_total s0 cb hInv0 hl0 hneg1
  have hd1 : s1.processed_transactions cb.tx_id =
      some (Transaction.deposit d) := by
    rw [hs1]
    exact hd
  have hmem : cb.tx_id ∈ s1.dispute_window := hInv1.dep_mem _ _ hd1
  obtain ⟨i, hfi⟩ := exists_findIdx_of_mem cb.tx_id s1.dispute_window hmem
  refine ⟨i, hfi, ?_⟩
  have hv : raw.variant = RawTransactionVariant.chargeback :=
    Chargeback.try_from_variant raw cb hcb
  have e0 : s.process_transaction raw = s0.apply_event raw := by
    unfold Client.process_transaction
    rw [← hs0]
  have e1 : s0.apply_event raw = s0.chargeback_arm cb := by
    unfold Client.apply_event
    rw [hv]
    dsimp only
    rw [hcb]
  have e2 : s0.chargeback_arm cb =
      s1.cascade_loop ((s1.dispute_window.drop i).reverse) := by
    unfold Client.chargeback_arm
    dsimp only
    rw [← hs1, hfi]
    dsimp only
    rw [if_pos hneg]
  rw [e0, e1, e2, cascade_loop_eq_scan_spec]

/-- Concrete events for the cascade witness: a deposit of 100, a
withdrawal of 60, and a dispute of the deposit. -/
def c1Events : List RawTransaction :=
  [depositRow 1 1 100, withdrawalRow 1 2 60, disputeRow 1 1]

/-- The state reached by `c1Events`. -/
def c1State : Client := (Client.new 1).process_activity c1Events

/-- The witness state after window admission. -/
def c1State0 : Client :=
  if WINDOW_SIZE ≤ c1State.dispute_window.length then
    c1State.finalize_transaction
  else c1State

/-- The witness state right after the chargeback of tx 1. -/
def c1State1 : Client :=
  c1State0.process_chargeback { client_id := 1, tx_id := 1 }

/-- Witness for C1: charging back the disputed deposit overdraws the
account and the step runs the spec's cascade scan. -/
theorem chargeback_cascade_follows_spec_witness :
    ∃ i, c1State1.dispute_window.findIdx? (fun id => id == 1) = some i ∧
      c1State.process_transaction (chargebackRow 1 1) =
        c1State1.cascade_scan_spec
          ((c1State1.dispute_window.drop i).reverse) := by
  exact chargeback_cascade_follows_spec 1 c1Events (chargebackRow 1 1)
    { client_id := 1, tx_id := 1 } c1State c1State0 c1State1 rfl
    (by norm_num [Client.process_activity, Client.process_transaction,
      Client.apply_event, Client.process_deposit, Client.process_withdrawal,
      Client.process_dispute, Client.process_resolve,
      Client.process_chargeback, Client.chargeback_arm, Client.cascade_loop,
      Client.reverse_withdrawal, Client.finalize_transaction,
      Deposit.try_from, Withdrawal.try_from, Dispute.try_from,
      Resolve.try_from, Chargeback.try_from, truncate_to_decimal_places,
      f64MAX, f64MIN, mapInsert, mapRemove, WINDOW_SIZE, Client.new,
      depositRow, withdrawalRow, disputeRow, resolveRow, chargebackRow,
      c1State, c1Events, List.findIdx?])
    rfl rfl rfl
    (by norm_num [Client.process_activity, Client.process_transaction,
      Client.apply_event, Client.process_deposit, Client.process_withdrawal,
      Client.process_dispute, Client.process_resolve,
      Client.process_chargeback, Client.chargeback_arm, Client.cascade_loop,
      Client.reverse_withdrawal, Client.finalize_transaction,
      Deposit.try_from, Withdrawal.try_from, Dispute.try_from,
      Resolve.try_from, Chargeback.try_from, truncate_to_decimal_places,
      f64MAX, f64MIN, mapInsert, mapRemove, WINDOW_SIZE, Client.new,
      depositRow, withdrawalRow, disputeRow, resolveRow, chargebackRow,
      c1State1, c1State0, c1State, c1Events, List.findIdx?])
